import Mathlib

/-!
Verification development for the polyglot-persistence IoT subsystem:
measurement ingestion/normalization, month-partitioned range queries,
daily city rollups, monthly reports and humidity alerting.

Numeric measurement values are modelled as rationals; timestamps as a
year/month/day/time-of-day record compared lexicographically, matching
Python `datetime` comparison.
-/

/-- A timestamp: year, month, day and time-of-day (seconds since midnight).
Python `datetime` comparison is lexicographic on these fields. -/
structure Datetime where
  year : Nat
  month : Nat
  day : Nat
  tod : Nat
deriving DecidableEq, Repr

/-- Lexicographic comparison of timestamps, as Python `datetime.__le__`. -/
def dtLe (a b : Datetime) : Bool :=
  if a.year ≠ b.year then decide (a.year < b.year)
  else if a.month ≠ b.month then decide (a.month < b.month)
  else if a.day ≠ b.day then decide (a.day < b.day)
  else decide (a.tod ≤ b.tod)

/-- A calendar-valid timestamp: month in 1..12, day at least 1
(what the Python `datetime` constructor enforces). -/
def validDT (d : Datetime) : Prop :=
  1 ≤ d.month ∧ d.month ≤ 12 ∧ 1 ≤ d.day

instance (d : Datetime) : Decidable (validDT d) := by
  unfold validDT; infer_instance

/-- Function `yyyymm` from `cassandra_part.py`: month partition key. -/
def yyyymm (d : Datetime) : Nat := d.year * 100 + d.month

/-- Function `yyyymmdd` from `cassandra_part.py`: day partition key. -/
def yyyymmdd (d : Datetime) : Nat := d.year * 10000 + d.month * 100 + d.day

/-- Function `normalize_humidity` from `cassandra_part.py`: accepts 0..1 or 0..100,
returns a value in 0..1, `none` if invalid. -/
def normalize_humidity : Option ℚ → Option ℚ
  | none => none
  | some h =>
    if 0 ≤ h ∧ h ≤ 1 then some h
    else if 1 < h ∧ h ≤ 100 then some (h / 100)
    else none

/-- One row of `measurement_by_city_day`. -/
structure CityRow where
  ts : Datetime
  sensor_id : String
  temperature : Option ℚ
  humidity : Option ℚ
deriving DecidableEq, Repr

/-- The temperature samples present in a row list, in row order
(`temps` accumulated by `rollup_daily_for_city`). -/
def tempsOf (rows : List CityRow) : List ℚ :=
  rows.filterMap (fun r => r.temperature)

/-- The humidity samples present in a row list, in row order
(`hums` accumulated by `rollup_daily_for_city`). -/
def humsOf (rows : List CityRow) : List ℚ :=
  rows.filterMap (fun r => r.humidity)

/-- Python `min` over a nonempty list (`none` for the empty list). -/
def listMin : List ℚ → Option ℚ
  | [] => none
  | x :: xs => some (xs.foldl min x)

/-- Python `max` over a nonempty list (`none` for the empty list). -/
def listMax : List ℚ → Option ℚ
  | [] => none
  | x :: xs => some (xs.foldl max x)

/-- One row of `daily_city_stats`. -/
structure DailyStats where
  temp_min : Option ℚ
  temp_max : Option ℚ
  temp_avg : Option ℚ
  hum_min : Option ℚ
  hum_max : Option ℚ
  hum_avg : Option ℚ
  samples : Nat
deriving DecidableEq, Repr

/-- The pure reduction inside `rollup_daily_for_city` (`cassandra_part.py`):
collect present temperatures and humidities, return `none` when both are
empty, otherwise per-channel min/max/mean and the summed sample count. -/
def daily_stats_of (rows : List CityRow) : Option DailyStats :=
  let temps := tempsOf rows
  let hums := humsOf rows
  if temps = [] ∧ hums = [] then none
  else some
    { temp_min := listMin temps
      temp_max := listMax temps
      temp_avg := if temps = [] then none else some (temps.sum / temps.length)
      hum_min := listMin hums
      hum_max := listMax hums
      hum_avg := if hums = [] then none else some (hums.sum / hums.length)
      samples := temps.length + hums.length }

/-- The persistent state touched by rollups and reports: the
`measurement_by_city_day` view and the `daily_city_stats` table, keyed by
country, city and `yyyymmdd`. -/
structure Store where
  cityDay : String → String → Nat → List CityRow
  dailyStats : String → String → Nat → Option DailyStats

/-- Function `rollup_daily_for_city` from `cassandra_part.py` as a state transformer:
reads the city-day partition; on no data returns `none` and writes nothing;
otherwise overwrites the `daily_city_stats` row for that key and returns
`some true`. -/
def rollup_daily_for_city (st : Store) (country city : String) (day : Nat) :
    Store × Option Bool :=
  match daily_stats_of (st.cityDay country city day) with
  | none => (st, none)
  | some ds =>
    ({ st with
        dailyStats := fun c' ci' d' =>
          if c' = country ∧ ci' = city ∧ d' = day then some ds
          else st.dailyStats c' ci' d' },
     some true)

theorem foldlMin_mem_le (x : ℚ) (xs : List ℚ) :
    xs.foldl min x ∈ x :: xs ∧ ∀ y ∈ x :: xs, xs.foldl min x ≤ y := by
  induction xs generalizing x with
  | nil => simp
  | cons y ys ih =>
    have h := ih (min x y)
    simp only [List.foldl_cons]
    constructor
    · rcases List.mem_cons.mp h.1 with h1 | h1
      · rw [h1]
        rcases min_choice x y with he | he <;> rw [he] <;> simp
      · simp [h1]
    · intro z hz
      rcases List.mem_cons.mp hz with h1 | hz2
      · rw [h1]
        exact le_trans (h.2 _ (List.mem_cons_self _ _)) (min_le_left x y)
      · rcases List.mem_cons.mp hz2 with h2 | hz3
        · rw [h2]
          exact le_trans (h.2 _ (List.mem_cons_self _ _)) (min_le_right x y)
        · exact h.2 _ (List.mem_cons_of_mem _ hz3)

theorem foldlMax_mem_le (x : ℚ) (xs : List ℚ) :
    xs.foldl max x ∈ x :: xs ∧ ∀ y ∈ x :: xs, y ≤ xs.foldl max x := by
  induction xs generalizing x with
  | nil => simp
  | cons y ys ih =>
    have h := ih (max x y)
    simp only [List.foldl_cons]
    constructor
    · rcases List.mem_cons.mp h.1 with h1 | h1
      · rw [h1]
        rcases max_choice x y with he | he <;> rw [he] <;> simp
      · simp [h1]
    · intro z hz
      rcases List.mem_cons.mp hz with h1 | hz2
      · rw [h1]
        exact le_trans (le_max_left x y) (h.2 _ (List.mem_cons_self _ _))
      · rcases List.mem_cons.mp hz2 with h2 | hz3
        · rw [h2]
          exact le_trans (le_max_right x y) (h.2 _ (List.mem_cons_self _ _))
        · exact h.2 _ (List.mem_cons_of_mem _ hz3)

theorem listMin_mem_le {l : List ℚ} {m : ℚ} (h : listMin l = some m) :
    m ∈ l ∧ ∀ x ∈ l, m ≤ x := by
  cases l with
  | nil => simp [listMin] at h
  | cons x xs =>
    simp only [listMin, Option.some.injEq] at h
    subst h
    exact foldlMin_mem_le x xs

theorem listMax_mem_le {l : List ℚ} {m : ℚ} (h : listMax l = some m) :
    m ∈ l ∧ ∀ x ∈ l, x ≤ m := by
  cases l with
  | nil => simp [listMax] at h
  | cons x xs =>
    simp only [listMax, Option.some.injEq] at h
    subst h
    exact foldlMax_mem_le x xs

theorem listMin_isSome {l : List ℚ} (h : l ≠ []) : ∃ m, listMin l = some m := by
  cases l with
  | nil => exact absurd rfl h
  | cons x xs => exact ⟨xs.foldl min x, rfl⟩

theorem listMax_isSome {l : List ℚ} (h : l ≠ []) : ∃ m, listMax l = some m := by
  cases l with
  | nil => exact absurd rfl h
  | cons x xs => exact ⟨xs.foldl max x, rfl⟩

/-- C2: humidity normalization keeps a value already in [0,1], divides a
value in (1,100] by 100, and rejects every other value (negative or above
100) so no humidity is stored for that channel; concretely 0.55 ↦ 0.55,
55 ↦ 0.55, and 101 and -3 are rejected. -/
theorem normalize_humidity_cases (h : ℚ) :
    (0 ≤ h ∧ h ≤ 1 → normalize_humidity (some h) = some h)
    ∧ (1 < h ∧ h ≤ 100 → normalize_humidity (some h) = some (h / 100))
    ∧ (h < 0 ∨ 100 < h → normalize_humidity (some h) = none)
    ∧ normalize_humidity (some 0.55) = some 0.55
    ∧ normalize_humidity (some 55) = some 0.55
    ∧ normalize_humidity (some 101) = none
    ∧ normalize_humidity (some (-3)) = none := by
  refine ⟨?_, ?_, ?_, ?_, ?_, ?_, ?_⟩
  · intro hr; simp [normalize_humidity, hr]
  · intro hr
    have h0 : ¬ (0 ≤ h ∧ h ≤ 1) := by rintro ⟨h1, h2⟩; linarith [hr.1]
    simp [normalize_humidity, h0, hr]
  · rintro (hr | hr)
    · have h0 : ¬ (0 ≤ h ∧ h ≤ 1) := by rintro ⟨h1, h2⟩; linarith
      have h1 : ¬ (1 < h ∧ h ≤ 100) := by rintro ⟨h2, h3⟩; linarith
      simp [normalize_humidity, h0, h1]
    · have h0 : ¬ (0 ≤ h ∧ h ≤ 1) := by rintro ⟨h1, h2⟩; linarith
      have h1 : ¬ (1 < h ∧ h ≤ 100) := by rintro ⟨h2, h3⟩; linarith
      simp [normalize_humidity, h0, h1]
  · norm_num [normalize_humidity]
  · norm_num [normalize_humidity]
  · norm_num [normalize_humidity]
  · norm_num [normalize_humidity]

/-- C2 witness: evaluation at h = 55. -/
theorem normalize_humidity_cases_witness :
    (1 < (55 : ℚ) ∧ (55 : ℚ) ≤ 100) ∧ normalize_humidity (some 55) = some (55 / 100) :=
  ⟨by norm_num, (normalize_humidity_cases 55).2.1 (by norm_num)⟩

/-- C3: the daily rollup computes min, max and arithmetic mean per channel
from only the samples present in that channel (a row missing one channel still
contributes the other), leaves all three statistics of an empty channel
absent, and stores the sum of the two per-channel sample counts. -/
theorem daily_stats_of_channels (rows : List CityRow)
    (hne : tempsOf rows ≠ [] ∨ humsOf rows ≠ []) :
    ∃ st, daily_stats_of rows = some st
    ∧ (∀ m, st.temp_min = some m → m ∈ tempsOf rows ∧ ∀ x ∈ tempsOf rows, m ≤ x)
    ∧ (∀ m, st.temp_max = some m → m ∈ tempsOf rows ∧ ∀ x ∈ tempsOf rows, x ≤ m)
    ∧ (∀ a, st.temp_avg = some a → a * (tempsOf rows).length = (tempsOf rows).sum)
    ∧ (tempsOf rows = [] → st.temp_min = none ∧ st.temp_max = none ∧ st.temp_avg = none)
    ∧ (tempsOf rows ≠ [] →
        (∃ m, st.temp_min = some m) ∧ (∃ m, st.temp_max = some m) ∧ (∃ a, st.temp_avg = some a))
    ∧ (∀ m, st.hum_min = some m → m ∈ humsOf rows ∧ ∀ x ∈ humsOf rows, m ≤ x)
    ∧ (∀ m, st.hum_max = some m → m ∈ humsOf rows ∧ ∀ x ∈ humsOf rows, x ≤ m)
    ∧ (∀ a, st.hum_avg = some a → a * (humsOf rows).length = (humsOf rows).sum)
    ∧ (humsOf rows = [] → st.hum_min = none ∧ st.hum_max = none ∧ st.hum_avg = none)
    ∧ (humsOf rows ≠ [] →
        (∃ m, st.hum_min = some m) ∧ (∃ m, st.hum_max = some m) ∧ (∃ a, st.hum_avg = some a))
    ∧ humsOf rows = humsOf (rows.map (fun r => { r with temperature := none }))
    ∧ tempsOf rows = tempsOf (rows.map (fun r => { r with humidity := none }))
    ∧ st.samples = (tempsOf rows).length + (humsOf rows).length := by
  have hcond : ¬ (tempsOf rows = [] ∧ humsOf rows = []) := by
    rcases hne with hne | hne <;> intro hc <;> [exact hne hc.1; exact hne hc.2]
  have hds : daily_stats_of rows = some
      { temp_min := listMin (tempsOf rows)
        temp_max := listMax (tempsOf rows)
        temp_avg := if tempsOf rows = [] then none
          else some ((tempsOf rows).sum / ((tempsOf rows).length : ℚ))
        hum_min := listMin (humsOf rows)
        hum_max := listMax (humsOf rows)
        hum_avg := if humsOf rows = [] then none
          else some ((humsOf rows).sum / ((humsOf rows).length : ℚ))
        samples := (tempsOf rows).length + (humsOf rows).length } := by
    simp only [daily_stats_of]
    rw [if_neg hcond]
  refine ⟨_, hds, ?_, ?_, ?_, ?_, ?_, ?_, ?_, ?_, ?_, ?_, ?_, ?_, ?_⟩
  · intro m hm; exact listMin_mem_le hm
  · intro m hm; exact listMax_mem_le hm
  · intro a ha
    have ha' : (if tempsOf rows = [] then none
        else some ((tempsOf rows).sum / ((tempsOf rows).length : ℚ))) = some a := ha
    by_cases ht : tempsOf rows = []
    · rw [if_pos ht] at ha'; exact Option.noConfusion ha'
    · rw [if_neg ht] at ha'
      have he := Option.some.inj ha'
      have hl : ((tempsOf rows).length : ℚ) ≠ 0 :=
        Nat.cast_ne_zero.mpr (by simpa [List.length_eq_zero] using ht)
      rw [← he]
      exact div_mul_cancel₀ _ hl
  · intro ht
    refine ⟨?_, ?_, ?_⟩
    · show listMin (tempsOf rows) = none
      rw [ht]; rfl
    · show listMax (tempsOf rows) = none
      rw [ht]; rfl
    · show (if tempsOf rows = [] then none
        else some ((tempsOf rows).sum / ((tempsOf rows).length : ℚ))) = none
      rw [if_pos ht]
  · intro ht
    exact ⟨listMin_isSome ht, listMax_isSome ht, _, if_neg ht⟩
  · intro m hm; exact listMin_mem_le hm
  · intro m hm; exact listMax_mem_le hm
  · intro a ha
    have ha' : (if humsOf rows = [] then none
        else some ((humsOf rows).sum / ((humsOf rows).length : ℚ))) = some a := ha
    by_cases ht : humsOf rows = []
    · rw [if_pos ht] at ha'; exact Option.noConfusion ha'
    · rw [if_neg ht] at ha'
      have he := Option.some.inj ha'
      have hl : ((humsOf rows).length : ℚ) ≠ 0 :=
        Nat.cast_ne_zero.mpr (by simpa [List.length_eq_zero] using ht)
      rw [← he]
      exact div_mul_cancel₀ _ hl
  · intro ht
    refine ⟨?_, ?_, ?_⟩
    · show listMin (humsOf rows) = none
      rw [ht]; rfl
    · show listMax (humsOf rows) = none
      rw [ht]; rfl
    · show (if humsOf rows = [] then none
        else some ((humsOf rows).sum / ((humsOf rows).length : ℚ))) = none
      rw [if_pos ht]
  · intro ht
    exact ⟨listMin_isSome ht, listMax_isSome ht, _, if_neg ht⟩
  · rw [humsOf, humsOf, List.filterMap_map]
    rfl
  · rw [tempsOf, tempsOf, List.filterMap_map]
    rfl
  · rfl

/-- C3 witness: a row with only temperature and a row with both channels. -/
theorem daily_stats_of_channels_witness :
    (tempsOf [⟨⟨2025, 1, 1, 0⟩, "S1", some 20, none⟩, ⟨⟨2025, 1, 1, 60⟩, "S1", some 30, some 0.5⟩] ≠ []
      ∨ humsOf [⟨⟨2025, 1, 1, 0⟩, "S1", some 20, none⟩, ⟨⟨2025, 1, 1, 60⟩, "S1", some 30, some 0.5⟩] ≠ [])
    ∧ ∃ st, daily_stats_of [⟨⟨2025, 1, 1, 0⟩, "S1", some 20, none⟩, ⟨⟨2025, 1, 1, 60⟩, "S1", some 30, some 0.5⟩] = some st
        ∧ st.samples = 3 := by
  refine ⟨Or.inl (by simp [tempsOf]), ?_⟩
  obtain ⟨st, h1, -, -, -, -, -, -, -, -, -, -, -, -, h14⟩ :=
    daily_stats_of_channels
      [⟨⟨2025, 1, 1, 0⟩, "S1", some 20, none⟩, ⟨⟨2025, 1, 1, 60⟩, "S1", some 30, some 0.5⟩]
      (Or.inl (by simp [tempsOf]))
  exact ⟨st, h1, by rw [h14]; rfl⟩

/-- C4: the daily rollup is idempotent: running it a second time for the
same key, with no intervening measurement writes, reads the same samples,
overwrites the stats row with the same value and returns the same result. -/
theorem rollup_daily_idempotent (st : Store) (country city : String) (day : Nat) :
    rollup_daily_for_city (rollup_daily_for_city st country city day).1 country city day
      = rollup_daily_for_city st country city day := by
  cases hd : daily_stats_of (st.cityDay country city day) with
  | none =>
    have h1 : rollup_daily_for_city st country city day = (st, none) := by
      simp [rollup_daily_for_city, hd]
    rw [h1, h1]
  | some ds =>
    have h1 : rollup_daily_for_city st country city day =
        ({ st with
            dailyStats := fun c' ci' d' =>
              if c' = country ∧ ci' = city ∧ d' = day then some ds
              else st.dailyStats c' ci' d' },
         some true) := by
      simp [rollup_daily_for_city, hd]
    rw [h1]
    have hd2 : daily_stats_of
        (({ st with
            dailyStats := fun c' ci' d' =>
              if c' = country ∧ ci' = city ∧ d' = day then some ds
              else st.dailyStats c' ci' d' } : Store).cityDay country city day) = some ds := hd
    simp only [rollup_daily_for_city, hd2]
    congr 1
    cases st with
    | mk cd dstats =>
      congr 1
      funext c' ci' d'
      by_cases hk : c' = country ∧ ci' = city ∧ d' = day
      · simp [hk]
      · simp [hk]

/-- C5: a city-day with zero temperature samples and zero humidity samples
produces a "no data" result and no write at all: the store (including the
daily stats table) is returned unchanged and no empty row is created. -/
theorem rollup_no_data_no_write (st : Store) (country city : String) (day : Nat)
    (ht : tempsOf (st.cityDay country city day) = [])
    (hh : humsOf (st.cityDay country city day) = []) :
    rollup_daily_for_city st country city day = (st, none) := by
  have : daily_stats_of (st.cityDay country city day) = none := by
    simp [daily_stats_of, ht, hh]
  simp [rollup_daily_for_city, this]

/-- A concrete store: one city-day partition holding a single reading with
both channels absent, empty stats table. -/
def demoStoreEmptyChannels : Store :=
  { cityDay := fun country city day =>
      if country = "AR" ∧ city = "BA" ∧ day = 20250101 then
        [⟨⟨2025, 1, 1, 0⟩, "S1", none, none⟩]
      else []
    dailyStats := fun _ _ _ => none }

/-- C5 witness: evaluation on the concrete empty-channels store. -/
theorem rollup_no_data_no_write_witness :
    (tempsOf (demoStoreEmptyChannels.cityDay "AR" "BA" 20250101) = []
      ∧ humsOf (demoStoreEmptyChannels.cityDay "AR" "BA" 20250101) = [])
    ∧ rollup_daily_for_city demoStoreEmptyChannels "AR" "BA" 20250101
        = (demoStoreEmptyChannels, none) :=
  ⟨⟨rfl, rfl⟩, rollup_no_data_no_write demoStoreEmptyChannels "AR" "BA" 20250101 rfl rfl⟩

/-- Sorted insertion of one element into a list. -/
def insertSorted (x : Nat) : List Nat → List Nat
  | [] => [x]
  | y :: ys => if x ≤ y then x :: y :: ys else y :: insertSorted x ys

/-- Insertion sort, modelling Python `sorted` on naturals. -/
def sortNat (l : List Nat) : List Nat := l.foldr insertSorted []

/-- Python `sorted(set(l))`: the ascending listing of the distinct
elements of `l`. -/
def sortedSet (l : List Nat) : List Nat := sortNat l.dedup

theorem sortNat_eq_self {l : List Nat} (h : l.Pairwise (· ≤ ·)) : sortNat l = l := by
  induction l with
  | nil => rfl
  | cons x xs ih =>
    have hx : sortNat (x :: xs) = insertSorted x (sortNat xs) := rfl
    rw [hx, ih h.of_cons]
    cases xs with
    | nil => rfl
    | cons y ys =>
      have hxy : x ≤ y := (List.pairwise_cons.mp h).1 y (List.mem_cons_self _ _)
      simp [insertSorted, hxy]

theorem dtLe_months {a b : Datetime} (ha : a.month ≤ 12) (h : dtLe a b = true) :
    a.year * 12 + a.month ≤ b.year * 12 + b.month := by
  rw [dtLe] at h
  split_ifs at h with h1 h2 h3 <;> simp only [decide_eq_true_eq] at h <;> omega

theorem months_dtLe {y m : Nat} {e : Datetime} (hm1 : 1 ≤ m) (hm2 : m ≤ 12)
    (he : validDT e) (h : y * 12 + m ≤ e.year * 12 + e.month) :
    dtLe ⟨y, m, 1, 0⟩ e = true := by
  obtain ⟨he1, he2, he3⟩ := he
  rw [dtLe]
  dsimp only
  split_ifs with h1 h2 h3 <;> simp only [decide_eq_true_eq] <;> omega

/-- The month-walking loop at the top of `query_sensor_range`
(`cassandra_part.py`): starting from the first of the start month, emit the
`yyyymm` key of each visited month while the cursor does not exceed `end`,
stepping one calendar month at a time.  The guard carries the cursor-month
bounds 1..12 that the Python `datetime` constructor enforces. -/
def monthLoop (e : Datetime) (y m : Nat) : List Nat :=
  if h : 1 ≤ m ∧ m ≤ 12 ∧ dtLe ⟨y, m, 1, 0⟩ e = true then
    if m + 1 = 13 then (y * 100 + m) :: monthLoop e (y + 1) 1
    else (y * 100 + m) :: monthLoop e y (m + 1)
  else []
termination_by e.year * 12 + e.month + 1 - (y * 12 + m)
decreasing_by
  · have h4 : y * 12 + m ≤ e.year * 12 + e.month := @dtLe_months ⟨y, m, 1, 0⟩ e h.2.1 h.2.2
    omega
  · have h4 : y * 12 + m ≤ e.year * 12 + e.month := @dtLe_months ⟨y, m, 1, 0⟩ e h.2.1 h.2.2
    omega

/-- The `yyyymm` code of the month with linear index `idx = year*12+month`. -/
def idxCode (idx : Nat) : Nat := (idx - 1) / 12 * 100 + ((idx - 1) % 12 + 1)

/-- The month set computed by `query_sensor_range` before partition
queries: `sorted(set([yyyymm(start)] ++ walked months))`. -/
def query_months (s e : Datetime) : List Nat :=
  sortedSet (yyyymm s :: monthLoop e s.year s.month)

/-- Claim-side month enumeration: one `yyyymm` code per calendar month from
the start month through the end month inclusive, in calendar order. -/
def monthCodeRange (s e : Datetime) : List Nat :=
  (List.range (e.year * 12 + e.month + 1 - (s.year * 12 + s.month))).map
    (fun i => idxCode (s.year * 12 + s.month + i))

theorem monthLoop_eq (e : Datetime) (he : validDT e) :
    ∀ (n y m : Nat), 1 ≤ m → m ≤ 12 →
      e.year * 12 + e.month + 1 - (y * 12 + m) = n →
      monthLoop e y m = (List.range n).map (fun i => idxCode (y * 12 + m + i)) := by
  intro n
  induction n with
  | zero =>
    intro y m hm1 hm2 hn
    rw [monthLoop, dif_neg]
    · simp
    · rintro ⟨h1, h2, h3⟩
      have h4 : y * 12 + m ≤ e.year * 12 + e.month := @dtLe_months ⟨y, m, 1, 0⟩ e h2 h3
      omega
  | succ k ih =>
    intro y m hm1 hm2 hn
    have hidx : y * 12 + m ≤ e.year * 12 + e.month := by omega
    have hcond : 1 ≤ m ∧ m ≤ 12 ∧ dtLe ⟨y, m, 1, 0⟩ e = true :=
      ⟨hm1, hm2, months_dtLe hm1 hm2 he hidx⟩
    rw [monthLoop, dif_pos hcond]
    by_cases hm13 : m + 1 = 13
    · rw [if_pos hm13, ih (y + 1) 1 (by omega) (by omega) (by omega)]
      rw [List.range_succ_eq_map, List.map_cons, List.map_map]
      congr 1
      · unfold idxCode; omega
      · apply List.map_congr_left
        intro i _
        simp only [Function.comp_apply]
        congr 1
        omega
    · rw [if_neg hm13, ih y (m + 1) (by omega) (by omega) (by omega)]
      rw [List.range_succ_eq_map, List.map_cons, List.map_map]
      congr 1
      · unfold idxCode; omega
      · apply List.map_congr_left
        intro i _
        simp only [Function.comp_apply]
        congr 1
        omega

theorem idxCode_lt {u v : Nat} (hu : 1 ≤ u) (huv : u < v) : idxCode u < idxCode v := by
  unfold idxCode; omega

theorem monthCodeRange_sorted (s e : Datetime) (hs : validDT s) :
    (monthCodeRange s e).Pairwise (· < ·) := by
  unfold monthCodeRange
  rw [List.pairwise_map]
  apply List.Pairwise.imp ?_ (List.pairwise_lt_range _)
  intro a b hab
  exact idxCode_lt (by have := hs.1; omega) (by omega)

theorem query_months_eq (s e : Datetime) (hs : validDT s) (he : validDT e)
    (hse : dtLe s e = true) : query_months s e = monthCodeRange s e := by
  obtain ⟨hs1, hs2, hs3⟩ := hs
  have hS : s.year * 12 + s.month ≤ e.year * 12 + e.month := dtLe_months hs2 hse
  have hml : monthLoop e s.year s.month = monthCodeRange s e :=
    monthLoop_eq e he _ s.year s.month hs1 hs2 rfl
  obtain ⟨k, hk⟩ : ∃ k, e.year * 12 + e.month + 1 - (s.year * 12 + s.month) = k + 1 :=
    ⟨e.year * 12 + e.month - (s.year * 12 + s.month), by omega⟩
  have hhead : ∃ tail, monthCodeRange s e = yyyymm s :: tail := by
    refine ⟨((List.range k).map
      ((fun i => idxCode (s.year * 12 + s.month + i)) ∘ Nat.succ)), ?_⟩
    unfold monthCodeRange
    rw [hk, List.range_succ_eq_map, List.map_cons, List.map_map]
    congr 1
    unfold idxCode yyyymm
    omega
  obtain ⟨tail, htail⟩ := hhead
  have hsorted : (monthCodeRange s e).Pairwise (· < ·) :=
    monthCodeRange_sorted s e ⟨hs1, hs2, hs3⟩
  have hmem : yyyymm s ∈ monthCodeRange s e := by
    rw [htail]; exact List.mem_cons_self _ _
  unfold query_months sortedSet
  rw [hml, List.dedup_cons_of_mem hmem, List.Nodup.dedup hsorted.nodup]
  exact sortNat_eq_self (hsorted.imp (fun h => le_of_lt h))

/-- One row of `measurement_by_sensor_month`. -/
structure Meas where
  ts : Datetime
  temperature : Option ℚ
  humidity : Option ℚ
deriving DecidableEq, Repr

/-- Function `query_sensor_range` from `cassandra_part.py`: one sub-query per month
in the sorted month set against the by-sensor-month table (modelled as the
partition map `table`), each returning the rows of the partition with
`start ≤ ts ≤ end` in the stored partition order, results appended in
month order with no further sorting. -/
def query_sensor_range (table : Nat → List Meas) (s e : Datetime) : List Meas :=
  (query_months s e).flatMap
    (fun m => (table m).filter (fun r => dtLe s r.ts && dtLe r.ts e))

theorem yyyymm_lt_dtLe {a b : Datetime} (ha : validDT a) (hb : validDT b)
    (h : yyyymm a < yyyymm b) : dtLe a b = true := by
  obtain ⟨ha1, ha2, _⟩ := ha
  obtain ⟨hb1, hb2, _⟩ := hb
  unfold yyyymm at h
  rw [dtLe]
  split_ifs with h1 h2 h3 <;> simp only [decide_eq_true_eq] <;> omega

theorem flatMap_filter_sorted (table : Nat → List Meas) (s e : Datetime)
    (months : List Nat) (hmonths : months.Pairwise (· < ·))
    (hsortp : ∀ m, (table m).Pairwise (fun a b => dtLe a.ts b.ts = true))
    (hpart : ∀ m, ∀ r ∈ table m, yyyymm r.ts = m ∧ validDT r.ts) :
    (months.flatMap
      (fun m => (table m).filter (fun r => dtLe s r.ts && dtLe r.ts e))).Pairwise
      (fun a b => dtLe a.ts b.ts = true) := by
  induction months with
  | nil => simp
  | cons m ms ih =>
    rw [List.flatMap_cons, List.pairwise_append]
    refine ⟨List.Pairwise.filter _ (hsortp m), ih hmonths.of_cons, ?_⟩
    intro a ha b hb
    have ham : a ∈ table m := List.mem_of_mem_filter ha
    obtain ⟨m', hm', hb'⟩ := List.mem_flatMap.mp hb
    have hbm : b ∈ table m' := List.mem_of_mem_filter hb'
    have h1 := hpart m a ham
    have h2 := hpart m' b hbm
    have hlt : m < m' := (List.pairwise_cons.mp hmonths).1 m' hm'
    exact yyyymm_lt_dtLe h1.2 h2.2 (by rw [h1.1, h2.1]; exact hlt)

/-- C1: for valid timestamps with start ≤ end, the range query issues
exactly one partition sub-query per calendar month from the start month
through the end month inclusive (the sorted month set equals the calendar
month enumeration, strictly increasing, one entry per month), appends the
filtered partition results in that order without further sorting, and —
whenever each partition is internally timestamp-sorted and holds only rows
of its own month — returns a sequence non-decreasing by timestamp. -/
theorem query_sensor_range_correct (table : Nat → List Meas) (s e : Datetime)
    (hs : validDT s) (he : validDT e) (hse : dtLe s e = true)
    (hsortp : ∀ m, (table m).Pairwise (fun a b => dtLe a.ts b.ts = true))
    (hpart : ∀ m, ∀ r ∈ table m, yyyymm r.ts = m ∧ validDT r.ts) :
    query_months s e = monthCodeRange s e
    ∧ (query_months s e).length
        = e.year * 12 + e.month + 1 - (s.year * 12 + s.month)
    ∧ (query_months s e).Pairwise (· < ·)
    ∧ query_sensor_range table s e
        = (query_months s e).flatMap
            (fun m => (table m).filter (fun r => dtLe s r.ts && dtLe r.ts e))
    ∧ (query_sensor_range table s e).Pairwise
        (fun a b => dtLe a.ts b.ts = true) := by
  have hq := query_months_eq s e hs he hse
  refine ⟨hq, ?_, ?_, rfl, ?_⟩
  · rw [hq]; unfold monthCodeRange; rw [List.length_map, List.length_range]
  · rw [hq]; exact monthCodeRange_sorted s e hs
  · unfold query_sensor_range
    exact flatMap_filter_sorted table s e _
      (by rw [hq]; exact monthCodeRange_sorted s e hs) hsortp hpart

/-- A concrete by-sensor-month partition table spanning a year boundary. -/
def demoTable : Nat → List Meas := fun m =>
  if m = 202401 then [⟨⟨2024, 1, 20, 0⟩, some 20, some 0.5⟩]
  else if m = 202501 then [⟨⟨2025, 1, 5, 0⟩, some 21, none⟩]
  else []

/-- C1 witness: a 13-month range from 2024-01-15 to 2025-01-10 on the
concrete table. -/
theorem query_sensor_range_correct_witness :
    (validDT ⟨2024, 1, 15, 0⟩ ∧ validDT ⟨2025, 1, 10, 0⟩
      ∧ dtLe ⟨2024, 1, 15, 0⟩ ⟨2025, 1, 10, 0⟩ = true
      ∧ monthCodeRange ⟨2024, 1, 15, 0⟩ ⟨2025, 1, 10, 0⟩
          = [202401, 202402, 202403, 202404, 202405, 202406, 202407,
             202408, 202409, 202410, 202411, 202412, 202501])
    ∧ (query_months ⟨2024, 1, 15, 0⟩ ⟨2025, 1, 10, 0⟩
          = monthCodeRange ⟨2024, 1, 15, 0⟩ ⟨2025, 1, 10, 0⟩
      ∧ (query_months ⟨2024, 1, 15, 0⟩ ⟨2025, 1, 10, 0⟩).length
          = 2025 * 12 + 1 + 1 - (2024 * 12 + 1)
      ∧ (query_months ⟨2024, 1, 15, 0⟩ ⟨2025, 1, 10, 0⟩).Pairwise (· < ·)
      ∧ query_sensor_range demoTable ⟨2024, 1, 15, 0⟩ ⟨2025, 1, 10, 0⟩
          = (query_months ⟨2024, 1, 15, 0⟩ ⟨2025, 1, 10, 0⟩).flatMap
              (fun m => (demoTable m).filter
                (fun r => dtLe ⟨2024, 1, 15, 0⟩ r.ts && dtLe r.ts ⟨2025, 1, 10, 0⟩))
      ∧ (query_sensor_range demoTable ⟨2024, 1, 15, 0⟩ ⟨2025, 1, 10, 0⟩).Pairwise
          (fun a b => dtLe a.ts b.ts = true)) := by
  constructor
  · exact ⟨by decide, by decide, by decide, by decide⟩
  · exact query_sensor_range_correct demoTable ⟨2024, 1, 15, 0⟩ ⟨2025, 1, 10, 0⟩
      (by decide) (by decide) (by decide)
      (by
        intro m
        by_cases h1 : m = 202401
        · simp [demoTable, h1]
        · by_cases h2 : m = 202501
          · simp [demoTable, h1, h2]
          · simp [demoTable, h1, h2])
      (by
        intro m r hr
        by_cases h1 : m = 202401
        · subst h1
          simp [demoTable] at hr
          subst hr
          exact ⟨rfl, by decide⟩
        · by_cases h2 : m = 202501
          · subst h2
            simp [demoTable, h1] at hr
            subst hr
            exact ⟨rfl, by decide⟩
          · simp [demoTable, h1, h2] at hr)

/-- Gregorian leap-year rule, as the Python `calendar` module applies it. -/
def isLeap (y : Nat) : Bool := y % 4 = 0 && (y % 100 ≠ 0 || y % 400 = 0)

/-- Python `calendar.monthrange(year, month)[1]`: the day count of the month. -/
def daysInMonth (y m : Nat) : Nat :=
  if m = 2 then (if isLeap y then 29 else 28)
  else if m = 4 ∨ m = 6 ∨ m = 9 ∨ m = 11 then 30
  else 31

/-- The day list iterated by `run_monthly_city_report` (`app.py`):
Python `range(1, last_day + 1)`. -/
def report_days (year month : Nat) : List Nat :=
  List.range' 1 (daysInMonth year month)

/-- The per-day loop of `run_monthly_city_report` (`app.py`): for each
calendar day of the month, run the daily rollup for the city, then select
the `daily_city_stats` row of that day, collecting the rows that exist. -/
def monthly_loop (st : Store) (country city : String) (year month : Nat) :
    Store × List DailyStats :=
  (report_days year month).foldl
    (fun acc day =>
      let k := year * 10000 + month * 100 + day
      let st' := (rollup_daily_for_city acc.1 country city k).1
      match st'.dailyStats country city k with
      | some row => (st', acc.2 ++ [row])
      | none => (st', acc.2))
    (st, [])

/-- The daily stats rows collected by the monthly extremes report. -/
def monthly_results (st : Store) (country city : String) (year month : Nat) :
    List DailyStats :=
  (monthly_loop st country city year month).2

/-- Outcome of the monthly extremes report. -/
inductive ReportResult where
  | success (temp_max temp_min : Option ℚ) (days : Nat)
  | failure (error : String)
deriving DecidableEq, Repr

/-- Function `rds.incr_usage` (`redis_module.py`) as a collaborator call that may
throw, indexed by whether the Redis backend fails. -/
def incr_usage (fails : Bool) : Except String Unit :=
  if fails then Except.error "redis unavailable" else Except.ok ()

/-- Python `try: ... except Exception: pass` around a collaborator call. -/
def tryExceptPass (r : Except String Unit) : Except String Unit :=
  match r with
  | Except.error _ => Except.ok ()
  | Except.ok _ => Except.ok ()

/-- Function `run_monthly_city_report` from `app.py`: run the per-day rollup loop
over every calendar day of the month; if no day yielded a stats row, return
the "sin datos" failure; otherwise meter usage (best-effort, exceptions
swallowed) and return the success result with the max of the daily
`temp_max` values, the min of the daily `temp_min` values and the number of
contributing rows. -/
def run_monthly_city_report (st : Store) (country city : String)
    (year month : Nat) (meterFails : Bool) :
    Except String (Store × ReportResult) :=
  if monthly_results st country city year month = [] then
    Except.ok ((monthly_loop st country city year month).1,
      ReportResult.failure "sin datos")
  else
    match tryExceptPass (incr_usage meterFails) with
    | Except.error e => Except.error e
    | Except.ok _ =>
      Except.ok ((monthly_loop st country city year month).1,
        ReportResult.success
          (listMax ((monthly_results st country city year month).filterMap
            (fun r => r.temp_max)))
          (listMin ((monthly_results st country city year month).filterMap
            (fun r => r.temp_min)))
          (monthly_results st country city year month).length)

theorem run_monthly_city_report_failure_eq (st : Store) (country city : String)
    (year month : Nat) (b : Bool)
    (hempty : monthly_results st country city year month = []) :
    run_monthly_city_report st country city year month b
      = Except.ok ((monthly_loop st country city year month).1,
          ReportResult.failure "sin datos") := by
  rw [run_monthly_city_report, if_pos hempty]

theorem run_monthly_city_report_success_eq (st : Store) (country city : String)
    (year month : Nat) (b : Bool)
    (hne : monthly_results st country city year month ≠ []) :
    run_monthly_city_report st country city year month b
      = Except.ok ((monthly_loop st country city year month).1,
          ReportResult.success
            (listMax ((monthly_results st country city year month).filterMap
              (fun r => r.temp_max)))
            (listMin ((monthly_results st country city year month).filterMap
              (fun r => r.temp_min)))
            (monthly_results st country city year month).length) := by
  rw [run_monthly_city_report, if_neg hne]
  cases b <;> rfl

/-- C6: the monthly extremes report iterates exactly the actual calendar
day count of the month (28 for a non-leap February, 29 for a leap one),
one rollup invocation per day; it returns the "sin datos" failure iff zero
days produced a daily stats row; and on success it reports the maximum of
the daily `temp_max` values, the minimum of the daily `temp_min` values,
and the count of days actually contributing data. -/
theorem run_monthly_city_report_correct (st : Store) (country city : String)
    (year month : Nat) (b : Bool) :
    (report_days year month).length = daysInMonth year month
    ∧ daysInMonth 2023 2 = 28
    ∧ daysInMonth 2024 2 = 29
    ∧ (monthly_results st country city year month = [] ↔
        run_monthly_city_report st country city year month b
          = Except.ok ((monthly_loop st country city year month).1,
              ReportResult.failure "sin datos"))
    ∧ (monthly_results st country city year month ≠ [] →
        run_monthly_city_report st country city year month b
          = Except.ok ((monthly_loop st country city year month).1,
              ReportResult.success
                (listMax ((monthly_results st country city year month).filterMap
                  (fun r => r.temp_max)))
                (listMin ((monthly_results st country city year month).filterMap
                  (fun r => r.temp_min)))
                (monthly_results st country city year month).length))
    ∧ (∀ q, listMax ((monthly_results st country city year month).filterMap
          (fun r => r.temp_max)) = some q →
        q ∈ (monthly_results st country city year month).filterMap (fun r => r.temp_max)
        ∧ ∀ x ∈ (monthly_results st country city year month).filterMap
            (fun r => r.temp_max), x ≤ q)
    ∧ (∀ q, listMin ((monthly_results st country city year month).filterMap
          (fun r => r.temp_min)) = some q →
        q ∈ (monthly_results st country city year month).filterMap (fun r => r.temp_min)
        ∧ ∀ x ∈ (monthly_results st country city year month).filterMap
            (fun r => r.temp_min), q ≤ x) := by
  refine ⟨?_, rfl, rfl, ?_, ?_, ?_, ?_⟩
  · rw [report_days, List.length_range']
  · constructor
    · intro hempty
      exact run_monthly_city_report_failure_eq st country city year month b hempty
    · intro hrun
      by_contra hne
      rw [run_monthly_city_report_success_eq st country city year month b hne] at hrun
      have := (Prod.mk.injEq _ _ _ _).mp (Except.ok.inj hrun)
      exact ReportResult.noConfusion this.2
  · intro hne
    exact run_monthly_city_report_success_eq st country city year month b hne
  · intro q hq
    exact listMax_mem_le hq
  · intro q hq
    exact listMin_mem_le hq

/-- A concrete store: measurements only on 2023-02-01 in Buenos Aires. -/
def demoStoreFeb : Store :=
  { cityDay := fun _ _ day =>
      if day = 20230201 then [⟨⟨2023, 2, 1, 0⟩, "S1", some 20, some 0.5⟩]
      else []
    dailyStats := fun _ _ _ => none }

set_option maxRecDepth 10000 in
/-- C6 witness: February 2023 on the concrete store has data, so the report
succeeds with the collected rows. -/
theorem run_monthly_city_report_correct_witness :
    (monthly_results demoStoreFeb "AR" "BA" 2023 2 ≠ [])
    ∧ run_monthly_city_report demoStoreFeb "AR" "BA" 2023 2 false
        = Except.ok ((monthly_loop demoStoreFeb "AR" "BA" 2023 2).1,
            ReportResult.success
              (listMax ((monthly_results demoStoreFeb "AR" "BA" 2023 2).filterMap
                (fun r => r.temp_max)))
              (listMin ((monthly_results demoStoreFeb "AR" "BA" 2023 2).filterMap
                (fun r => r.temp_min)))
              (monthly_results demoStoreFeb "AR" "BA" 2023 2).length) :=
  ⟨by decide,
   (run_monthly_city_report_correct demoStoreFeb "AR" "BA" 2023 2 false).2.2.2.2.1
     (by decide)⟩

/-- C9: a metering failure raised inside a successful monthly extremes
report is swallowed: the report return value is identical whether or not
`incr_usage` throws, and on a month with data the report still returns a
success result. -/
theorem metering_failure_swallowed (st : Store) (country city : String)
    (year month : Nat) (b : Bool) :
    run_monthly_city_report st country city year month b
      = run_monthly_city_report st country city year month false
    ∧ (monthly_results st country city year month ≠ [] →
        ∃ tmax tmin n,
          run_monthly_city_report st country city year month true
            = Except.ok ((monthly_loop st country city year month).1,
                ReportResult.success tmax tmin n)) := by
  constructor
  · by_cases hne : monthly_results st country city year month = []
    · rw [run_monthly_city_report_failure_eq st country city year month b hne,
        run_monthly_city_report_failure_eq st country city year month false hne]
    · rw [run_monthly_city_report_success_eq st country city year month b hne,
        run_monthly_city_report_success_eq st country city year month false hne]
  · intro hne
    exact ⟨_, _, _,
      run_monthly_city_report_success_eq st country city year month true hne⟩

set_option maxRecDepth 10000 in
/-- C9 witness: on the concrete February store, a throwing metering call
still yields a success result. -/
theorem metering_failure_swallowed_witness :
    (monthly_results demoStoreFeb "AR" "BA" 2023 2 ≠ [])
    ∧ ∃ tmax tmin n,
        run_monthly_city_report demoStoreFeb "AR" "BA" 2023 2 true
          = Except.ok ((monthly_loop demoStoreFeb "AR" "BA" 2023 2).1,
              ReportResult.success tmax tmin n) :=
  ⟨by decide,
   (metering_failure_swallowed demoStoreFeb "AR" "BA" 2023 2 true).2 (by decide)⟩

/-- Summary returned by the month-wide average query. -/
structure AvgSummary where
  temp_avg : Option ℚ
  hum_avg : Option ℚ
  temp_samples : Nat
  hum_samples : Nat
deriving DecidableEq, Repr

/-- Modelled from the spec: `cas.get_avg_temp_hum` is called by
`run_monthly_avg_report` (`app.py`) but its definition is missing from the
repository sources; per the spec the averages variant "computes a single
month-wide temperature average and humidity average plus sample counts
directly ... one query against the full month", each channel averaged over
only its present samples. `rows` is the measurement data of the month for the
city. -/
def get_avg_temp_hum (rows : List CityRow) : AvgSummary :=
  let temps := tempsOf rows
  let hums := humsOf rows
  { temp_avg := if temps = [] then none else some (temps.sum / temps.length)
    hum_avg := if hums = [] then none else some (hums.sum / hums.length)
    temp_samples := temps.length
    hum_samples := hums.length }

/-- Outcome of the monthly averages report. -/
inductive AvgReport where
  | success (temp_avg hum_avg : Option ℚ) (temp_samples hum_samples : Nat)
  | failure (error : String)
deriving DecidableEq, Repr

/-- Function `run_monthly_avg_report` from `app.py`: one month-wide summary query;
if both sample counts are zero the process is marked failed with
"sin datos", otherwise the summary fields are reported. -/
def run_monthly_avg_report (rows : List CityRow) : AvgReport :=
  let summary := get_avg_temp_hum rows
  if summary.temp_samples = 0 ∧ summary.hum_samples = 0 then
    AvgReport.failure "sin datos"
  else
    AvgReport.success summary.temp_avg summary.hum_avg
      summary.temp_samples summary.hum_samples

/-- C7: the monthly averages report fails iff both the monthly temperature
sample count and humidity sample count are zero; a month whose readings all
lack humidity but contain temperatures still succeeds, reporting
`hum_samples = 0` together with a present `temp_avg`. -/
theorem run_monthly_avg_report_failure_iff (rows : List CityRow) :
    ((∃ e, run_monthly_avg_report rows = AvgReport.failure e) ↔
      (tempsOf rows).length = 0 ∧ (humsOf rows).length = 0)
    ∧ ((∀ r ∈ rows, r.humidity = none) → tempsOf rows ≠ [] →
        ∃ a, run_monthly_avg_report rows
          = AvgReport.success (some a) none (tempsOf rows).length 0) := by
  have hts : (get_avg_temp_hum rows).temp_samples = (tempsOf rows).length := rfl
  have hhs : (get_avg_temp_hum rows).hum_samples = (humsOf rows).length := rfl
  have hta : (get_avg_temp_hum rows).temp_avg
      = (if tempsOf rows = [] then none
         else some ((tempsOf rows).sum / ((tempsOf rows).length : ℚ))) := rfl
  have hha : (get_avg_temp_hum rows).hum_avg
      = (if humsOf rows = [] then none
         else some ((humsOf rows).sum / ((humsOf rows).length : ℚ))) := rfl
  constructor
  · constructor
    · rintro ⟨e, he⟩
      by_contra hc
      rw [run_monthly_avg_report] at he
      rw [hts, hhs, if_neg hc] at he
      exact AvgReport.noConfusion he
    · intro hzero
      refine ⟨"sin datos", ?_⟩
      rw [run_monthly_avg_report]
      rw [hts, hhs, if_pos hzero]
  · intro hnohum hne
    have hhum : humsOf rows = [] := by
      rw [humsOf, List.filterMap_eq_nil_iff]
      intro r hr
      exact hnohum r hr
    have hcond : ¬ ((tempsOf rows).length = 0 ∧ (humsOf rows).length = 0) := by
      intro hc
      exact hne (List.length_eq_zero.mp hc.1)
    refine ⟨(tempsOf rows).sum / ((tempsOf rows).length : ℚ), ?_⟩
    rw [run_monthly_avg_report]
    rw [hts, hhs, if_neg hcond, hta, hha]
    rw [if_neg hne, if_pos hhum, hhum]
    rfl

/-- C7 witness: a temperature-only month succeeds with zero humidity
samples and a present average. -/
theorem run_monthly_avg_report_failure_iff_witness :
    ((∀ r ∈ [(⟨⟨2025, 3, 1, 0⟩, "S1", some 20, none⟩ : CityRow),
        ⟨⟨2025, 3, 2, 0⟩, "S1", some 30, none⟩], r.humidity = none)
      ∧ tempsOf [⟨⟨2025, 3, 1, 0⟩, "S1", some 20, none⟩,
          ⟨⟨2025, 3, 2, 0⟩, "S1", some 30, none⟩] ≠ [])
    ∧ ∃ a, run_monthly_avg_report [⟨⟨2025, 3, 1, 0⟩, "S1", some 20, none⟩,
          ⟨⟨2025, 3, 2, 0⟩, "S1", some 30, none⟩]
        = AvgReport.success (some a) none
            (tempsOf [⟨⟨2025, 3, 1, 0⟩, "S1", some 20, none⟩,
              ⟨⟨2025, 3, 2, 0⟩, "S1", some 30, none⟩]).length 0 :=
  ⟨⟨by decide, by decide⟩,
   (run_monthly_avg_report_failure_iff
      [⟨⟨2025, 3, 1, 0⟩, "S1", some 20, none⟩,
       ⟨⟨2025, 3, 2, 0⟩, "S1", some 30, none⟩]).2 (by decide) (by decide)⟩

/-- A Python value as it flows through the duck-typed alert code. -/
inductive PyVal where
  | vnum (q : ℚ)
  | vstr (s : String)
  | vnone
deriving DecidableEq, Repr

/-- Python truthiness. -/
def truthy : PyVal → Bool
  | PyVal.vnum q => decide (q ≠ 0)
  | PyVal.vstr s => decide (s ≠ "")
  | PyVal.vnone => false

/-- Python `a or b`: `a` when truthy, otherwise `b`. -/
def pyOr (a b : PyVal) : PyVal := if truthy a then a else b

/-- A duck-typed row (Cassandra `Row`, named tuple or dict): an association
of field names to values. -/
abbrev Row := List (String × PyVal)

/-- Function `safe_get` from `alerts_part.py`: key/attribute access that returns
`None` when the field is missing, whatever the row shape. -/
def safe_get (r : Row) (k : String) : PyVal :=
  match r.find? (fun p => p.1 == k) with
  | some p => p.2
  | none => PyVal.vnone

/-- One humidity alert record built by `check_humidity_limits`. -/
structure HumAlert where
  sensorId : PyVal
  country : PyVal
  city : PyVal
  value : ℚ
  thresholdMin : ℚ
  thresholdMax : ℚ
deriving DecidableEq, Repr

/-- Modelled from the spec: the sensor catalog and latest-reading lookup
used by the alert engine — `cas.get_all_sensors` and
`cas.get_recent_measurements(session, sensor_id, limit=1)` are called by
`alerts_part.py` but missing from the repository sources; per the spec the
humidity check visits every sensor and takes "only its single most recent
reading", with measurements stored humidity-normalized to [0,1]. -/
structure AlertsEnv where
  sensors : List Row
  recent : PyVal → List Row

/-- Constant `HUM_MIN` from `alerts_part.py` (a percent threshold). -/
def HUM_MIN : ℚ := 10

/-- Constant `HUM_MAX` from `alerts_part.py` (a percent threshold). -/
def HUM_MAX : ℚ := 85

/-- The body of the `check_humidity_limits` sensor loop
(`alerts_part.py`): resolve the sensor id via
`safe_get(s, "sensorId") or safe_get(s, "id")`; skip the sensor on a falsy
id, an empty recent list, or a humidity of `None` after
`safe_get(last, "humidity") or safe_get(last, "hum")`; alert when the raw
humidity value is below `hum_min` or above `hum_max` (a non-numeric
humidity would raise a `TypeError` in the comparison). -/
def humStep (env : AlertsEnv) (hum_min hum_max : ℚ) (s : Row) :
    Except String (List HumAlert) :=
  let sensor_id := pyOr (safe_get s "sensorId") (safe_get s "id")
  if truthy sensor_id = false then Except.ok []
  else
    match env.recent sensor_id with
    | [] => Except.ok []
    | last :: _ =>
      match pyOr (safe_get last "humidity") (safe_get last "hum") with
      | PyVal.vnone => Except.ok []
      | PyVal.vstr _ => Except.error "TypeError"
      | PyVal.vnum q =>
        if q < hum_min ∨ hum_max < q then
          Except.ok [{ sensorId := sensor_id
                       country := safe_get s "country"
                       city := safe_get s "city"
                       value := q
                       thresholdMin := hum_min
                       thresholdMax := hum_max }]
        else Except.ok []

/-- The sensor loop of `check_humidity_limits`, accumulating alerts in
sensor order; an exception aborts the whole check. -/
def humAlertsList (env : AlertsEnv) (hum_min hum_max : ℚ) :
    List Row → Except String (List HumAlert)
  | [] => Except.ok []
  | s :: rest =>
    match humStep env hum_min hum_max s with
    | Except.error e => Except.error e
    | Except.ok a =>
      match humAlertsList env hum_min hum_max rest with
      | Except.error e => Except.error e
      | Except.ok r => Except.ok (a ++ r)

/-- Function `check_humidity_limits` from `alerts_part.py`: run the sensor loop over
every known sensor and return the alert records with their count. -/
def check_humidity_limits (env : AlertsEnv) (hum_min hum_max : ℚ) :
    Except String (List HumAlert × Nat) :=
  match humAlertsList env hum_min hum_max env.sensors with
  | Except.error e => Except.error e
  | Except.ok l => Except.ok (l, l.length)

/-- The C8 failing input: one sensor `S1` whose single most recent reading
stores humidity 0.55, i.e. the normalized form of a 55% raw reading. -/
def demoAlertsEnv : AlertsEnv :=
  { sensors := [[("sensorId", PyVal.vstr "S1"), ("country", PyVal.vstr "AR"),
                 ("city", PyVal.vstr "BA")]]
    recent := fun v =>
      if v = PyVal.vstr "S1" then
        [[("sensor_id", PyVal.vstr "S1"), ("temperature", PyVal.vnum 20),
          ("humidity", PyVal.vnum 0.55)]]
      else [] }

/-- C8: the humidity bounds check applies NO normalization to the stored
value: a sensor whose latest stored humidity is
`normalize_humidity 55 = 0.55` — i.e. 55%, inside the claimed default
10%–85% band — still produces exactly one below-minimum alert, because the
raw stored fraction 0.55 is compared directly against the percent
thresholds 10 and 85. -/
theorem check_humidity_limits_no_normalization :
    normalize_humidity (some 55) = some 0.55
    ∧ (HUM_MIN / 100 ≤ (0.55 : ℚ) ∧ (0.55 : ℚ) ≤ HUM_MAX / 100)
    ∧ check_humidity_limits demoAlertsEnv HUM_MIN HUM_MAX
        = Except.ok ([{ sensorId := PyVal.vstr "S1"
                        country := PyVal.vstr "AR"
                        city := PyVal.vstr "BA"
                        value := 0.55
                        thresholdMin := HUM_MIN
                        thresholdMax := HUM_MAX }], 1) := by
  refine ⟨?_, ⟨?_, ?_⟩, ?_⟩
  · rw [normalize_humidity]
    rw [if_neg (by norm_num), if_pos (by norm_num)]
    norm_num
  · rw [HUM_MIN]; norm_num
  · rw [HUM_MAX]; norm_num
  · have hq : decide ((0.55 : ℚ) = 0) = false := by
      rw [decide_eq_false_iff_not]
      norm_num
    have hmin : (0.55 : ℚ) < HUM_MIN := by rw [HUM_MIN]; norm_num
    rw [check_humidity_limits]
    have hstep : humAlertsList demoAlertsEnv HUM_MIN HUM_MAX demoAlertsEnv.sensors
        = Except.ok [{ sensorId := PyVal.vstr "S1"
                       country := PyVal.vstr "AR"
                       city := PyVal.vstr "BA"
                       value := 0.55
                       thresholdMin := HUM_MIN
                       thresholdMax := HUM_MAX }] := by
      simp [demoAlertsEnv, humAlertsList, humStep, safe_get, pyOr, truthy, hq, hmin]
    rw [hstep]
    rfl

/-- C10: a most-recent reading whose humidity equals 0 is treated as
missing — `safe_get(last, "humidity") or safe_get(last, "hum")` chains past
the falsy 0 to the absent `"hum"` field — so the sensor produces no alert,
even though 0 lies below a positive lower bound such as the default 10. -/
theorem check_humidity_zero_no_alert (env : AlertsEnv) (hum_min hum_max : ℚ)
    (hpos : 0 < hum_min)
    (hzero : ∀ s ∈ env.sensors, ∀ last rest,
      env.recent (pyOr (safe_get s "sensorId") (safe_get s "id")) = last :: rest →
      safe_get last "humidity" = PyVal.vnum 0 ∧ safe_get last "hum" = PyVal.vnone) :
    check_humidity_limits env hum_min hum_max = Except.ok ([], 0) := by
  have hlist : ∀ l : List Row, (∀ s ∈ l, ∀ last rest,
      env.recent (pyOr (safe_get s "sensorId") (safe_get s "id")) = last :: rest →
      safe_get last "humidity" = PyVal.vnum 0 ∧ safe_get last "hum" = PyVal.vnone) →
      humAlertsList env hum_min hum_max l = Except.ok [] := by
    intro l
    induction l with
    | nil => intro _; rfl
    | cons s rest ih =>
      intro hl
      have hs := hl s (List.mem_cons_self _ _)
      have ht0 : truthy (PyVal.vnum 0) = false := by
        show decide ((0 : ℚ) ≠ 0) = false
        rw [decide_eq_false_iff_not]
        norm_num
      have hstep : humStep env hum_min hum_max s = Except.ok [] := by
        rw [humStep]
        by_cases hid : truthy (pyOr (safe_get s "sensorId") (safe_get s "id")) = false
        · rw [if_pos hid]
        · rw [if_neg hid]
          split
          · rfl
          · rename_i last rest' hr
            obtain ⟨h1, h2⟩ := hs last rest' hr
            rw [h1, h2, pyOr, ht0]
            rw [if_neg (by simp)]
      rw [humAlertsList, hstep, ih (fun s' hs' => hl s' (List.mem_cons_of_mem _ hs'))]
      rfl
  rw [check_humidity_limits, hlist env.sensors hzero]
  rfl

/-- An alert environment whose single sensor has a latest reading carrying
humidity exactly 0. -/
def demoZeroHumEnv : AlertsEnv :=
  { sensors := [[("sensorId", PyVal.vstr "S2"), ("country", PyVal.vstr "AR"),
                 ("city", PyVal.vstr "BA")]]
    recent := fun v =>
      if v = PyVal.vstr "S2" then
        [[("sensor_id", PyVal.vstr "S2"), ("humidity", PyVal.vnum 0)]]
      else [] }

/-- C10 witness: the zero-humidity sensor yields no alert under the default
band. -/
theorem check_humidity_zero_no_alert_witness :
    ((0 : ℚ) < HUM_MIN
      ∧ ∀ s ∈ demoZeroHumEnv.sensors, ∀ last rest,
          demoZeroHumEnv.recent (pyOr (safe_get s "sensorId") (safe_get s "id"))
            = last :: rest →
          safe_get last "humidity" = PyVal.vnum 0 ∧ safe_get last "hum" = PyVal.vnone)
    ∧ check_humidity_limits demoZeroHumEnv HUM_MIN HUM_MAX = Except.ok ([], 0) := by
  have hpos : (0 : ℚ) < HUM_MIN := by rw [HUM_MIN]; norm_num
  have hzero : ∀ s ∈ demoZeroHumEnv.sensors, ∀ last rest,
      demoZeroHumEnv.recent (pyOr (safe_get s "sensorId") (safe_get s "id"))
        = last :: rest →
      safe_get last "humidity" = PyVal.vnum 0 ∧ safe_get last "hum" = PyVal.vnone := by
    intro s hs last rest hr
    simp only [demoZeroHumEnv, List.mem_cons, List.not_mem_nil, or_false] at hs
    subst hs
    simp only [demoZeroHumEnv, safe_get, pyOr, truthy] at hr
    simp at hr
    rw [← hr.1]
    exact ⟨rfl, rfl⟩
  exact ⟨⟨hpos, hzero⟩, check_humidity_zero_no_alert demoZeroHumEnv HUM_MIN HUM_MAX hpos hzero⟩
